import Mathlib

/-!
Verification development for the PDF extractor batch pipeline
(`src/extractor/main.py`).  Python strings are modelled as `List Char`,
`Optional[T]` as `Option`, machine-independent numbers as `Int`/`Nat`/`ℚ`.
Each definition is a shallow embedding of the corresponding source
function; sleeps are recorded in an explicit trace of durations (seconds).
-/

namespace Extractor

/-- Convert a Lean string literal to the `List Char` model of Python strings. -/
def pyStr (s : String) : List Char := s.data

/-- `isLeadOf p s`: `p` occurs at the start of `s` (Python `s.startswith(p)`). -/
def isLeadOf : List Char → List Char → Bool
  | [], _ => true
  | _ :: _, [] => false
  | a :: as, b :: bs => a == b && isLeadOf as bs

/-- `listSub p s`: `p` is a contiguous substring of `s` (Python `p in s`).
The empty string is a substring of everything, as in Python. -/
def listSub : List Char → List Char → Bool
  | p, [] => p.isEmpty
  | p, s@(_ :: t) => isLeadOf p s || listSub p t

/-- Python `s.replace("_Rev", "")`: remove every occurrence of `_Rev`,
scanning left to right, non-overlapping. -/
def removeRev : List Char → List Char
  | '_' :: 'R' :: 'e' :: 'v' :: rest => removeRev rest
  | c :: rest => c :: removeRev rest
  | [] => []

/-- Python `s.rstrip("0123456789")`: drop trailing ASCII digits. -/
def rstripDigits (s : List Char) : List Char :=
  (s.reverse.dropWhile Char.isDigit).reverse

/-- The trimming applied by `detect_assembly` before substring comparison:
`s.replace("_Rev", "").rstrip("0123456789")`. -/
def trimId (s : List Char) : List Char := rstripDigits (removeRev s)

/-- ASCII lower-casing, modelling Python `str.lower()` on the ASCII
strings compared against `"none"`. -/
def lowerStr (s : List Char) : List Char := s.map Char.toLower

/-- Python truthiness of an `Optional[str]`: `None` and `""` are falsy. -/
def optStrTruthy : Option (List Char) → Bool
  | none => false
  | some s => !s.isEmpty

/-- Python truthiness of an `Optional[list]`: `None` and `[]` are falsy. -/
def optListTruthy {α : Type} : Option (List α) → Bool
  | none => false
  | some l => !l.isEmpty

/-! ## Retry policy (`process_with_retry`, main.py lines 44-86) -/

/-- The fixed backoff schedule `delays = [2, 4, 8, 16, 30, 60, 60]` (seconds). -/
def delays : List ℚ := [2, 4, 8, 16, 30, 60, 60]

/-- Error classification of `process_with_retry`:
`"503" in error_msg or "429" in error_msg or "overloaded" in error_msg`. -/
def isRetryable (msg : List Char) : Bool :=
  listSub (pyStr "503") msg || listSub (pyStr "429") msg ||
    listSub (pyStr "overloaded") msg

/-- One attempt's outcome as seen by the retry loop: the wrapped call either
returns a value or raises an error carrying a message. -/
abbrev Attempt (α : Type) := Except (List Char) α

/-- The retry loop body, fuelled by the number of remaining loop iterations.
`retryAux o j maxR fuel attempt` runs the Python `for attempt in
range(max_retries + 1)` loop from iteration `attempt` with `fuel` iterations
left; `o` gives each attempt's outcome, `j` the `random.random()` jitter drawn
on each retried attempt.  Returns the list of sleep durations performed, in
order, and the final result; the fuel-exhausted case is the unreachable
`raise RuntimeError("Max retries exceeded")` after the loop. -/
def retryAux {α : Type} (o : Nat → Attempt α) (j : Nat → ℚ) (maxR : Nat) :
    Nat → Nat → List ℚ × Attempt α
  | 0, _ => ([], .error (pyStr "Max retries exceeded"))
  | fuel + 1, attempt =>
    match o attempt with
    | .ok r => ([], .ok r)
    | .error e =>
      if !isRetryable e || attempt == maxR then ([], .error e)
      else
        let d := delays.getD attempt 60 + j attempt
        let rest := retryAux o j maxR fuel (attempt + 1)
        (d :: rest.1, rest.2)

/-- `process_with_retry`: run the loop for `max_retries + 1` iterations from
attempt 0. -/
def process_with_retry {α : Type} (o : Nat → Attempt α) (j : Nat → ℚ)
    (maxRetries : Nat := 7) : List ℚ × Attempt α :=
  retryAux o j maxRetries (maxRetries + 1) 0

/-! ## Data model (`src/extractor/types.py`) -/

/-- `HoleDetails` (types.py): details of a hole in the drawing. -/
structure HoleDetails where
  count : Option Int
  type : Option (List Char)
  diameter : Option (List Char)
  thread_size : Option (List Char)
  tolerance : Option (List Char)
  depth : Option (List Char)
  location : Option (List Char)
  notes : Option (List Char)
deriving DecidableEq

/-- `ToleratedLength` (types.py): a dimension with explicit tolerance. -/
structure ToleratedLength where
  dimension : Option (List Char)
  notes : Option (List Char)
  tolerance_type : Option (List Char)
  upper_tolerance : Option (List Char)
  lower_tolerance : Option (List Char)
  related_feature : Option (List Char)
deriving DecidableEq

/-- `TextSignal` (types.py): OCR hint carried on `OrderDetails`. -/
structure TextSignal where
  category : List Char
  raw_value : List Char
  page : Option Int
  source : Option (List Char)
  context : Option (List Char)
  note : Option (List Char)
deriving DecidableEq

/-- `OrderItem` (types.py): single part extracted from a PDF.  Every field is
`Optional` in the source. -/
structure OrderItem where
  part_number : Option (List Char)
  holes : Option (List HoleDetails)
  tolerated_lengths : Option (List ToleratedLength)
  surface_treatment : Option (List Char)
  material : Option (List Char)
  notes : Option (List Char)
  bom_part_numbers : Option (List (List Char))
  description : Option (List Char)
  quantity : Option Int
deriving DecidableEq

/-- `OrderDetails` (types.py): top-level extraction result. -/
structure OrderDetails where
  items : List OrderItem
  detected_signals : Option (List TextSignal)
  drawing_number : Option (List Char)
  drawing_title : Option (List Char)
  customer_name : Option (List Char)
deriving DecidableEq

/-- An `OrderItem` with only an identifier and a BOM list, all other fields
absent (`None`), as pydantic constructs by default. -/
def mkItem (pn : Option (List Char)) (bom : Option (List (List Char))) :
    OrderItem :=
  ⟨pn, none, none, none, none, none, bom, none, none⟩

/-! ## Assembly detection (`detect_assembly`, main.py lines 163-199) -/

/-- The inner `any(...)` of `detect_assembly`: BOM reference `bp` of `item`
matches some entry of `items` with a truthy, different part number, by the
trimmed-substring test
`bom_part.replace("_Rev","").rstrip("0123456789") in other.part_number or
 other.part_number.replace("_Rev","").rstrip("0123456789") in bom_part`. -/
def bomMatch (items : List OrderItem) (item : OrderItem) (bp : List Char) :
    Bool :=
  items.any fun other =>
    match other.part_number with
    | none => false
    | some opn =>
      !opn.isEmpty && decide (other.part_number ≠ item.part_number) &&
        (listSub (trimId bp) opn || listSub (trimId opn) bp)

/-- The `for item in items` loop of `detect_assembly`: skip items with a
falsy BOM list, compute the `matches` comprehension, and return the first
item whose `matches` list is non-empty.  `some r` models the loop executing
`return r` (where `r` is the item's optional part number); `none` models
falling through the loop. -/
def detectLoop (all : List OrderItem) :
    List OrderItem → Option (Option (List Char))
  | [] => none
  | item :: rest =>
    if !optListTruthy item.bom_part_numbers then detectLoop all rest
    else
      let found := (item.bom_part_numbers.getD []).filter (bomMatch all item)
      if !found.isEmpty then some item.part_number
      else detectLoop all rest

/-- `detect_assembly` (main.py lines 163-199). -/
def detect_assembly (items : List OrderItem) : Option (List Char) :=
  match items with
  | [item] => item.part_number
  | _ =>
    match detectLoop items items with
    | some r => r
    | none =>
      match items with
      | [] => none
      | first :: _ => first.part_number

/-! ## Circuit breaker (main.py lines 202-221)

The global counter `consecutive_failures` is modelled as an `Int` threaded
through the batch loop (the `asyncio.Lock` serialises access; the batch is
sequential, so the lock only linearises the operations modelled here). -/

/-- `MAX_CONSECUTIVE_FAILURES = 5`. -/
def MAX_CONSECUTIVE_FAILURES : Int := 5

/-- `CIRCUIT_BREAKER_DELAY = 5 * 60` seconds, written as the literal 300. -/
def CIRCUIT_BREAKER_DELAY : ℚ := 300

/-- `circuit_breaker_check`: if `consecutive_failures >=
MAX_CONSECUTIVE_FAILURES`, sleep `CIRCUIT_BREAKER_DELAY` seconds and reset
the counter to 0; otherwise do nothing.  Returns the sleeps performed and
the new counter. -/
def circuit_breaker_check (cf : Int) : List ℚ × Int :=
  if cf ≥ MAX_CONSECUTIVE_FAILURES then ([CIRCUIT_BREAKER_DELAY], 0)
  else ([], cf)

/-! ## Batch loop (`extract_batch`, main.py lines 296-333) -/

/-- The mutable state of the `extract_batch` per-file loop: the global
`consecutive_failures` counter, the accumulated `all_items`, and the
`success_count` / `fail_count` tallies. -/
structure BatchState where
  cf : Int
  allItems : List OrderItem
  succ : Nat
  fail : Nat
deriving DecidableEq

/-- The initial batch loop state: module-level `consecutive_failures = 0`,
empty accumulators. -/
def initState : BatchState := ⟨0, [], 0, 0⟩

/-- The outcome of one file's `process_with_retry` call as observed by the
batch loop: the `OrderDetails` returned, or the exception's message. -/
abbrev JobOutcome := Except (List Char) OrderDetails

/-- One iteration of the `for i, pdf_file in enumerate(pdf_files)` loop
(main.py lines 296-333): run `circuit_breaker_check`, then either the `try`
body (reset the counter, tally by `data.items`, and — except after the last
file — sleep 1 second) or the `except` body (increment the counter, tally a
failure, no pacing sleep).  Returns the new state and the sleeps this
iteration performed, in order. -/
def processFile (st : BatchState) (out : JobOutcome) (isLast : Bool) :
    BatchState × List ℚ :=
  let checked := circuit_breaker_check st.cf
  match out with
  | .ok data =>
    let st1 : BatchState :=
      if data.items.isEmpty then
        { st with cf := 0, fail := st.fail + 1 }
      else
        { st with cf := 0, allItems := st.allItems ++ data.items,
                  succ := st.succ + 1 }
    (st1, checked.1 ++ if isLast then [] else [1])
  | .error _ =>
    ({ st with cf := checked.2 + 1, fail := st.fail + 1 }, checked.1)

/-- The whole per-file loop over the job outcomes, in file order.  The last
element of the list is the last file (`i == len(pdf_files) - 1`). -/
def runBatch (st : BatchState) : List JobOutcome → BatchState × List ℚ
  | [] => (st, [])
  | out :: rest =>
    let step := processFile st out rest.isEmpty
    let cont := runBatch step.1 rest
    (cont.1, step.2 ++ cont.2)

/-! ## Assembly merge (`extract_batch`, main.py lines 342-382) -/

/-- The guard `new_surface and new_surface.lower() not in ("none", "")`
on the re-extraction's surface treatment. -/
def newSurfaceUsable (s : Option (List Char)) : Bool :=
  match s with
  | none => false
  | some t =>
    !t.isEmpty &&
      !(lowerStr t == pyStr "none" || lowerStr t == pyStr "")

/-- The guard `not old_surface or old_surface.lower() in ("none", "")`
on the original surface treatment. -/
def oldSurfaceMissing (s : Option (List Char)) : Bool :=
  match s with
  | none => true
  | some t =>
    t.isEmpty || (lowerStr t == pyStr "none" || lowerStr t == pyStr "")

/-- The per-item body of the merge loop (main.py lines 365-377): for the
items whose `part_number` equals the detected assembly part number, take the
re-extraction's surface treatment when usable and the original was missing,
and take the re-extraction's BOM part numbers when truthy; all other items
pass through unchanged. -/
def mergeItem (bomData : OrderItem) (assemblyPn : List Char)
    (item : OrderItem) : OrderItem :=
  if item.part_number = some assemblyPn then
    let item1 :=
      if newSurfaceUsable bomData.surface_treatment &&
          oldSurfaceMissing item.surface_treatment then
        { item with surface_treatment := bomData.surface_treatment }
      else item
    if optListTruthy bomData.bom_part_numbers then
      { item1 with bom_part_numbers := bomData.bom_part_numbers }
    else item1
  else item

/-- The merge applied to the combined order when the re-extraction returned
`assembly_data` (main.py lines 360-378): if `assembly_data.items` is empty
nothing happens, otherwise `bom_data = assembly_data.items[0]` is merged
into every item of the combined order, order preserved. -/
def mergeAssembly (combined : List OrderItem)
    (assemblyItems : List OrderItem) (assemblyPn : List Char) :
    List OrderItem :=
  match assemblyItems with
  | [] => combined
  | bomData :: _ => combined.map (mergeItem bomData assemblyPn)

/-- The whole `try/except` re-extraction-and-merge block (main.py lines
347-382) as a function of the restricted re-extraction's outcome: on an
exception the block is a no-op on the combined items; on success the merge
runs. -/
def applyAssemblyMerge (combined : List OrderItem)
    (reResult : Except (List Char) OrderDetails) (assemblyPn : List Char) :
    List OrderItem :=
  match reResult with
  | .error _ => combined
  | .ok d => mergeAssembly combined d.items assemblyPn

/-! ## Spec-side definitions, for refinement comparison

`detectAssemblyClaimed` follows the claim's literal wording of the match
relation; `detectAssemblySpec` is the amended wording.  Both restate the
detector as "first item satisfying a predicate" so they can be compared with
the source-derived `detect_assembly`. -/

/-- Modelled from the claim's words: "a reference matches another identifier
when, after stripping the `_Rev` marker and trailing digits, the reference
contains the trimmed other identifier or the trimmed other identifier
contains the reference". -/
def claimRefMatch (ref otherId : List Char) : Bool :=
  listSub (trimId otherId) ref || listSub ref (trimId otherId)

/-- The claim's per-item test: some BOM reference of `item` matches (in the
claim's sense) the identifier of some item with a present, non-empty,
different identifier. -/
def claimItemMatches (items : List OrderItem) (item : OrderItem) : Bool :=
  (item.bom_part_numbers.getD []).any fun ref =>
    items.any fun other =>
      match other.part_number with
      | none => false
      | some opn =>
        !opn.isEmpty && decide (other.part_number ≠ item.part_number) &&
          claimRefMatch ref opn

/-- The claim's description of `detect_assembly`, stated with the claim's
literal match relation. -/
def detectAssemblyClaimed (items : List OrderItem) : Option (List Char) :=
  match items with
  | [] => none
  | [item] => item.part_number
  | first :: _ =>
    match items.find? (claimItemMatches items) with
    | some it => it.part_number
    | none => first.part_number

/-- The amended match relation: the reference with `_Rev` removed and
trailing digits stripped is a substring of the other identifier, or the
other identifier with `_Rev` removed and trailing digits stripped is a
substring of the reference. -/
def specRefMatch (ref otherId : List Char) : Bool :=
  listSub (trimId ref) otherId || listSub (trimId otherId) ref

/-- The amended per-item test: some BOM reference of `item` matches (in the
amended sense) the identifier of some item with a present, non-empty,
different identifier. -/
def specItemMatches (items : List OrderItem) (item : OrderItem) : Bool :=
  (item.bom_part_numbers.getD []).any fun ref =>
    items.any fun other =>
      match other.part_number with
      | none => false
      | some opn =>
        !opn.isEmpty && decide (other.part_number ≠ item.part_number) &&
          specRefMatch ref opn

/-- The amended description of `detect_assembly`: empty list gives `none`; a
single item gives its (possibly absent) identifier; otherwise the first item
with a matching BOM reference, falling back to the first item; the result is
the designated item's identifier field, hence `none` when that identifier is
absent. -/
def detectAssemblySpec (items : List OrderItem) : Option (List Char) :=
  match items with
  | [] => none
  | [item] => item.part_number
  | first :: _ =>
    match items.find? (specItemMatches items) with
    | some it => it.part_number
    | none => first.part_number

/-- An identifier consisting only of ASCII digits, optionally interleaved
with `_Rev` markers (parsed left to right, as Python's `replace` does). -/
def digitsRev : List Char → Bool
  | [] => true
  | '_' :: 'R' :: 'e' :: 'v' :: rest => digitsRev rest
  | c :: rest => c.isDigit && digitsRev rest

/-! ## Concrete fixtures used in counterexamples and witnesses -/

/-- A job failing with a non-retryable message. -/
def errJob : JobOutcome := .error (pyStr "boom")

/-- A job succeeding with one extracted item. -/
def okJob : JobOutcome :=
  .ok ⟨[mkItem (some (pyStr "X")) none], none, none, none, none⟩

/-- A job succeeding but with an empty item list (counted as failed by the
batch loop, yet the extraction call itself returned). -/
def emptyJob : JobOutcome := .ok ⟨[], none, none, none, none⟩

/-- Two items both lacking a part number. -/
def exNoneItems : List OrderItem := [mkItem none none, mkItem none none]

/-- Items separating the code's match direction from the claim's: the first
item's reference `"A5"` trims to `"A"`, a substring of `"AB"` (code
matches), while the claim's relation only matches the second item. -/
def exDirItems : List OrderItem :=
  [mkItem (some (pyStr "P1")) (some [pyStr "A5"]),
   mkItem (some (pyStr "AB")) (some [pyStr "P"])]

/-- A batch whose first item has the all-digits identifier `"12"` and a BOM
reference matching the second item. -/
def exDigitItems : List OrderItem :=
  [mkItem (some (pyStr "12")) (some [pyStr "AB"]),
   mkItem (some (pyStr "AB1")) (some [pyStr "ZZZ"])]

/-! ## Helper lemmas -/

lemma listSub_nil (l : List Char) : listSub [] l = true := by
  cases l <;> simp [listSub, isLeadOf]

lemma trim_of_digitsRev : ∀ s : List Char, digitsRev s = true → trimId s = [] := by
  intro s h
  suffices hall : (removeRev s).all Char.isDigit = true by
    unfold trimId rstripDigits
    have : (removeRev s).reverse.dropWhile Char.isDigit = [] := by
      rw [List.dropWhile_eq_nil_iff]
      intro x hx
      exact List.all_eq_true.mp hall x (List.mem_reverse.mp hx)
    simp [this]
  induction s using digitsRev.induct with
  | case1 => rfl
  | case2 rest ih => simp only [digitsRev] at h; simpa [removeRev] using ih h
  | case3 c rest hne ih =>
      simp only [digitsRev] at h
      rw [Bool.and_eq_true] at h
      obtain ⟨hcd, hrest⟩ := h
      rw [removeRev.eq_def]
      split
      · rename_i r heq
        injection heq with h1 h2
        exact absurd h2 (fun hh => hne r h1 hh)
      · rename_i c2 rest2 hne2 heq
        injection heq with h1 h2
        subst h1
        subst h2
        simp [List.all_cons, hcd, ih hrest]
      · rename_i heq
        simp at heq

lemma specItemMatches_eq_bomMatch (all : List OrderItem) (it : OrderItem) :
    specItemMatches all it = (it.bom_part_numbers.getD []).any (bomMatch all it) := rfl

lemma filter_isEmpty_eq {α : Type} (p : α → Bool) (l : List α) :
    (l.filter p).isEmpty = !l.any p := by
  induction l with
  | nil => rfl
  | cons a t ih => cases h : p a <;> simp [List.filter_cons, h, ih]

lemma detectLoop_cons (all : List OrderItem) (item : OrderItem)
    (rest : List OrderItem) :
    detectLoop all (item :: rest) =
      if specItemMatches all item then some item.part_number
      else detectLoop all rest := by
  rw [detectLoop]
  rcases hb : item.bom_part_numbers with _ | bl
  · simp [optListTruthy, hb, specItemMatches]
  · rcases bl with _ | ⟨b, bs⟩
    · simp [optListTruthy, hb, specItemMatches]
    · have hfe : ((b :: bs).filter (bomMatch all item)).isEmpty
          = !specItemMatches all item := by
        rw [filter_isEmpty_eq, specItemMatches_eq_bomMatch all, hb]
        rfl
      cases hsp : specItemMatches all item <;>
        simp [optListTruthy, hb, hfe, hsp]

lemma detectLoop_eq_find (all : List OrderItem) :
    ∀ l : List OrderItem,
      detectLoop all l
        = (l.find? (specItemMatches all)).map OrderItem.part_number := by
  intro l
  induction l with
  | nil => rfl
  | cons item rest ih =>
    rw [detectLoop_cons]
    cases hsp : specItemMatches all item
    · rw [List.find?_cons_of_neg _ (by simp [hsp]), if_neg (by simp [hsp]), ih]
    · rw [List.find?_cons_of_pos _ hsp, if_pos rfl]
      rfl

lemma find?_transfer {α : Type} (p q : α → Bool)
    (hpq : ∀ a, q a = true → p a = true) :
    ∀ (l : List α) (x : α), l.find? p = some x → q x = true →
      l.find? q = some x := by
  intro l
  induction l with
  | nil => intro x h; simp at h
  | cons a t ih =>
    intro x hp hq
    cases hpa : p a
    · rw [List.find?_cons_of_neg _ (by simp [hpa])] at hp
      have hqa : q a = false := by
        cases hqa : q a
        · rfl
        · exact absurd (hpq a hqa) (by simp [hpa])
      rw [List.find?_cons_of_neg _ (by simp [hqa])]
      exact ih x hp hq
    · rw [List.find?_cons_of_pos _ hpa] at hp
      injection hp with hx
      subst hx
      rw [List.find?_cons_of_pos _ hq]

lemma specItemMatches_truthy (all : List OrderItem) (it : OrderItem) :
    specItemMatches all it = true → optListTruthy it.bom_part_numbers = true := by
  intro h
  rcases hb : it.bom_part_numbers with _ | bl
  · simp [specItemMatches, hb] at h
  · rcases bl with _ | ⟨b, bs⟩
    · simp [specItemMatches, hb] at h
    · simp [optListTruthy, hb]

/-! ## Claim theorems: assembly detection (C5, C10) -/

/-- C5 counterexample: `detect_assembly` returns `none` on a two-item list
whose items lack part numbers, contradicting "returns none exactly when the
item list is empty"; and on `exDirItems` the code returns the first item's
identifier `"P1"` while the claim's literal match relation designates the
second item `"AB"`. -/
theorem detect_assembly_claim_counterexample :
    (detect_assembly exNoneItems = none ∧ exNoneItems.length = 2) ∧
    (detect_assembly exDirItems = some (pyStr "P1") ∧
     detectAssemblyClaimed exDirItems = some (pyStr "AB") ∧
     pyStr "P1" ≠ pyStr "AB") := by decide

/-- C5 amended: `detect_assembly` equals the first-match/fallback
description `detectAssemblySpec`, in which an item matches when some BOM
reference and some present, non-empty, different identifier satisfy the
trimmed-substring comparison in either direction (each side trimmed when it
is the contained string), and the result is the designated item's optional
identifier (`none` exactly when the list is empty or that identifier is
absent). -/
theorem detect_assembly_matches_spec (items : List OrderItem) :
    detect_assembly items = detectAssemblySpec items := by
  match items with
  | [] => rfl
  | [x] => rfl
  | a :: b :: rest =>
    show (match detectLoop (a :: b :: rest) (a :: b :: rest) with
          | some r => r
          | none => a.part_number) = _
    rw [detectLoop_eq_find]
    show _ = (match (a :: b :: rest).find? (specItemMatches (a :: b :: rest)) with
              | some it => it.part_number
              | none => a.part_number)
    rcases hf : (a :: b :: rest).find? (specItemMatches (a :: b :: rest)) with _ | it <;>
      rfl

/-- C10 counterexample: in `exDigitItems` the all-digits identifier `"12"`
belongs to the first item, whose own reference `"AB"` matches the second
item; detection returns `"12"`, not the identifier `"AB1"` of the first item
with a non-empty BOM list and an identifier different from `"12"` as the
claim states. -/
theorem detect_assembly_digits_counterexample :
    digitsRev (pyStr "12") = true ∧ pyStr "12" ≠ [] ∧
    (exDigitItems.find? fun it =>
        optListTruthy it.bom_part_numbers &&
          decide (it.part_number ≠ some (pyStr "12"))) =
      some (mkItem (some (pyStr "AB1")) (some [pyStr "ZZZ"])) ∧
    detect_assembly exDigitItems = some (pyStr "12") ∧
    some (pyStr "12") ≠ some (pyStr "AB1") := by decide

/-- C10 amended: if a multi-item batch contains an item `y` whose non-empty
identifier consists only of digits optionally interleaved with `_Rev` (so it
trims to the empty string, a substring of every reference), then the first
item in input order with a non-empty BOM reference list — provided its
identifier differs from `y`'s — is declared the assembly regardless of its
references' contents. -/
theorem detect_assembly_digit_identifier
    (items : List OrderItem) (y x : OrderItem) (s : List Char)
    (hy : y ∈ items) (hypn : y.part_number = some s) (hs : s ≠ [])
    (hdig : digitsRev s = true) (hlen : 2 ≤ items.length)
    (hfx : items.find? (fun it => optListTruthy it.bom_part_numbers) = some x)
    (hne : x.part_number ≠ y.part_number) :
    detect_assembly items = x.part_number := by
  have hx : optListTruthy x.bom_part_numbers = true := by
    have h0 := List.find?_some hfx
    simpa using h0
  rcases hbx : x.bom_part_numbers with _ | bl
  · rw [hbx] at hx; simp [optListTruthy] at hx
  · rcases bl with _ | ⟨b, bs⟩
    · rw [hbx] at hx; simp [optListTruthy] at hx
    · have h1 : (!s.isEmpty) = true := by
        cases s with
        | nil => exact absurd rfl hs
        | cons c t => rfl
      have h2 : decide (some s ≠ x.part_number) = true := by
        rw [decide_eq_true_iff]
        intro heq
        exact hne (by rw [← heq, hypn])
      have h3 : listSub (trimId s) b = true := by
        rw [trim_of_digitsRev s hdig]
        exact listSub_nil b
      have hmatch : specItemMatches items x = true := by
        rw [specItemMatches_eq_bomMatch, hbx]
        apply List.any_eq_true.mpr
        refine ⟨b, List.mem_cons_self _ _, ?_⟩
        apply List.any_eq_true.mpr
        refine ⟨y, hy, ?_⟩
        rw [hypn]
        simp [h1, h2, h3]
      have hfq : items.find? (specItemMatches items) = some x :=
        find?_transfer _ _ (specItemMatches_truthy items) items x hfx hmatch
      rcases items with _ | ⟨a, _ | ⟨a2, rest⟩⟩
      · simp at hlen
      · simp at hlen
      · show (match detectLoop (a :: a2 :: rest) (a :: a2 :: rest) with
              | some r => r
              | none => a.part_number) = x.part_number
        rw [detectLoop_eq_find, hfq]
        rfl

/-- C10 witness: a concrete two-item batch where the all-digits item `"37"`
comes second; the first item has a BOM list whose reference `"Q"` shares no
text with anything, yet it is declared the assembly. -/
theorem detect_assembly_digit_identifier_witness :
    detect_assembly
      [mkItem (some (pyStr "A")) (some [pyStr "Q"]),
       mkItem (some (pyStr "37")) none] = some (pyStr "A") :=
  detect_assembly_digit_identifier
    [mkItem (some (pyStr "A")) (some [pyStr "Q"]),
     mkItem (some (pyStr "37")) none]
    (mkItem (some (pyStr "37")) none)
    (mkItem (some (pyStr "A")) (some [pyStr "Q"]))
    (pyStr "37") (by decide) (by decide) (by decide) (by decide) (by decide)
    (by decide) (by decide)

/-! ## Claim theorems: retry policy (C1, C2) -/

lemma retryAux_ok_run {α : Type} (o : Nat → Attempt α) (j : Nat → ℚ)
    (maxR : Nat) (r : α) :
    ∀ (k a : Nat),
      (∀ i, i < k → ∃ e, o (a + i) = .error e ∧ isRetryable e = true) →
      o (a + k) = .ok r → a + k ≤ maxR →
      retryAux o j maxR (maxR + 1 - a) a =
        ((List.range k).map fun i => delays.getD (a + i) 60 + j (a + i), .ok r) := by
  intro k
  induction k with
  | zero =>
    intro a hfail hok hle
    have hfuel : maxR + 1 - a = (maxR - a) + 1 := by omega
    rw [hfuel, retryAux]
    simp only [Nat.add_zero] at hok
    rw [hok]
    simp
  | succ k ih =>
    intro a hfail hok hle
    have hfuel : maxR + 1 - a = (maxR - a) + 1 := by omega
    obtain ⟨e, he, hre⟩ := hfail 0 (Nat.succ_pos k)
    simp only [Nat.add_zero] at he
    have hne : (a == maxR) = false := by
      simp only [beq_eq_false_iff_ne]
      omega
    rw [hfuel, retryAux, he]
    simp only [hre, Bool.not_true, Bool.false_or, hne, if_neg]
    have hfuel2 : maxR - a = maxR + 1 - (a + 1) := by omega
    have ihh := ih (a + 1)
      (fun i hi => by
        obtain ⟨e2, he2, hre2⟩ := hfail (i + 1) (by omega)
        exact ⟨e2, by rw [show a + 1 + i = a + (i + 1) by omega]; exact he2, hre2⟩)
      (by rw [show a + 1 + k = a + (k + 1) by omega]; exact hok)
      (by omega)
    rw [if_neg (by simp), hfuel2, ihh]
    refine Prod.ext ?_ rfl
    show (delays.getD a 60 + j a) ::
        List.map (fun i => delays.getD (a + 1 + i) 60 + j (a + 1 + i)) (List.range k) = _
    rw [List.range_succ_eq_map, List.map_cons, List.map_map]
    simp only [Nat.add_zero]
    congr 1
    apply List.map_congr_left
    intro i hi
    simp only [Function.comp_apply]
    have harg : a + (i + 1) = a + 1 + i := by omega
    rw [show Nat.succ i = i + 1 from rfl, harg]

lemma retryAux_err_run {α : Type} (o : Nat → Attempt α) (j : Nat → ℚ)
    (maxR : Nat) (e : List Char) :
    ∀ (k a : Nat),
      (∀ i, i < k → ∃ e2, o (a + i) = .error e2 ∧ isRetryable e2 = true) →
      o (a + k) = .error e → (isRetryable e = false ∨ a + k = maxR) →
      a + k ≤ maxR →
      retryAux o j maxR (maxR + 1 - a) a =
        ((List.range k).map fun i => delays.getD (a + i) 60 + j (a + i), .error e) := by
  intro k
  induction k with
  | zero =>
    intro a hfail he hstop hle
    have hfuel : maxR + 1 - a = (maxR - a) + 1 := by omega
    simp only [Nat.add_zero] at he hstop
    have hcond : (!isRetryable e || (a == maxR)) = true := by
      rcases hstop with h | h
      · simp [h]
      · simp [h]
    rw [hfuel, retryAux, he]
    simp [hcond]
  | succ k ih =>
    intro a hfail he hstop hle
    have hfuel : maxR + 1 - a = (maxR - a) + 1 := by omega
    obtain ⟨e2, he2, hre2⟩ := hfail 0 (Nat.succ_pos k)
    simp only [Nat.add_zero] at he2
    have hne : (a == maxR) = false := by
      simp only [beq_eq_false_iff_ne]
      omega
    rw [hfuel, retryAux, he2]
    simp only [hre2, Bool.not_true, Bool.false_or, hne]
    have hfuel2 : maxR - a = maxR + 1 - (a + 1) := by omega
    have ihh := ih (a + 1)
      (fun i hi => by
        obtain ⟨e3, he3, hre3⟩ := hfail (i + 1) (by omega)
        exact ⟨e3, by rw [show a + 1 + i = a + (i + 1) by omega]; exact he3, hre3⟩)
      (by rw [show a + 1 + k = a + (k + 1) by omega]; exact he)
      (by rcases hstop with h | h
          · exact Or.inl h
          · exact Or.inr (by omega))
      (by omega)
    rw [if_neg (by simp), hfuel2, ihh]
    refine Prod.ext ?_ rfl
    show (delays.getD a 60 + j a) ::
        List.map (fun i => delays.getD (a + 1 + i) 60 + j (a + 1 + i)) (List.range k) = _
    rw [List.range_succ_eq_map, List.map_cons, List.map_map]
    simp only [Nat.add_zero]
    congr 1
    apply List.map_congr_left
    intro i hi
    simp only [Function.comp_apply]
    have harg : a + (i + 1) = a + 1 + i := by omega
    rw [show Nat.succ i = i + 1 from rfl, harg]

/-- C1: if the first `k ≤ maxRetries` attempts raise retryable errors
(message containing `503`, `429` or `overloaded`) and attempt `k` succeeds,
`process_with_retry` returns that success and sleeps exactly `k` times, the
`i`-th sleep lasting `delays[i]` (clamped to 60 past the schedule's end)
plus the `i`-th jitter draw. -/
theorem process_with_retry_success {α : Type} (o : Nat → Attempt α)
    (j : Nat → ℚ) (maxR k : Nat) (r : α)
    (hk : k ≤ maxR)
    (hfail : ∀ i, i < k → ∃ e, o i = .error e ∧ isRetryable e = true)
    (hok : o k = .ok r) :
    process_with_retry o j maxR =
      ((List.range k).map fun i => delays.getD i 60 + j i, .ok r) := by
  have h := retryAux_ok_run o j maxR r k 0
    (by simpa using hfail) (by simpa using hok) (by omega)
  simpa [process_with_retry] using h

/-- C1 witness: two `503` failures then success, `maxRetries = 7`,
constant jitter `1/2`. -/
theorem process_with_retry_success_witness :
    process_with_retry
        (fun n => if n < 2 then .error (pyStr "503 Service Unavailable")
                  else .ok (0 : Nat))
        (fun _ => (1 : ℚ) / 2) 7 =
      ((List.range 2).map
        fun i => delays.getD i 60 + (fun _ => (1 : ℚ) / 2) i, .ok 0) :=
  process_with_retry_success _ _ 7 2 0 (by omega)
    (by intro i hi
        interval_cases i <;>
          exact ⟨pyStr "503 Service Unavailable", rfl, by decide⟩)
    rfl

/-- C2: if the first `k ≤ maxRetries` attempts raise retryable errors and
attempt `k` raises an error that is fatal or is the final allowed attempt,
`process_with_retry` propagates that error unmodified, with no sleep at or
after attempt `k` (for `k = 0`, zero sleeps in total). -/
theorem process_with_retry_failure {α : Type} (o : Nat → Attempt α)
    (j : Nat → ℚ) (maxR k : Nat) (e : List Char)
    (hk : k ≤ maxR)
    (hfail : ∀ i, i < k → ∃ e2, o i = .error e2 ∧ isRetryable e2 = true)
    (he : o k = .error e)
    (hstop : isRetryable e = false ∨ k = maxR) :
    process_with_retry o j maxR =
      ((List.range k).map fun i => delays.getD i 60 + j i, .error e) := by
  have h := retryAux_err_run o j maxR e k 0
    (by simpa using hfail) (by simpa using he) (by simpa using hstop) (by omega)
  simpa [process_with_retry] using h

/-- C2 witness: a fatal error on the first attempt is re-raised with zero
sleeps. -/
theorem process_with_retry_failure_witness :
    process_with_retry
        ((fun _ => .error (pyStr "quota exhausted")) : Nat → Attempt Nat)
        (fun _ => (1 : ℚ) / 2) 7 =
      ([], .error (pyStr "quota exhausted")) :=
  process_with_retry_failure
    ((fun _ => .error (pyStr "quota exhausted")) : Nat → Attempt Nat)
    (fun _ => (1 : ℚ) / 2) 7 0 (pyStr "quota exhausted") (by omega)
    (fun i hi => absurd hi (Nat.not_lt_zero i))
    rfl (Or.inl (by decide))

/-! ## Claim theorems: circuit breaker and batch loop (C3, C4, C9) -/

lemma runBatch_err_below (n : Nat) :
    ∀ st : BatchState, 0 ≤ st.cf → st.cf + n ≤ 5 →
      runBatch st (List.replicate n errJob) =
        ({ st with cf := st.cf + n, fail := st.fail + n }, []) := by
  induction n with
  | zero =>
    intro st h1 h2
    cases st
    simp [runBatch]
  | succ n ih =>
    intro st h1 h2
    rw [List.replicate_succ, runBatch]
    have hchk : circuit_breaker_check st.cf = ([], st.cf) := by
      unfold circuit_breaker_check MAX_CONSECUTIVE_FAILURES
      rw [if_neg (by omega)]
    have hstep : processFile st errJob (List.replicate n errJob).isEmpty =
        ({ st with cf := st.cf + 1, fail := st.fail + 1 }, []) := by
      simp [processFile, errJob, hchk]
    rw [hstep]
    have ihh := ih { st with cf := st.cf + 1, fail := st.fail + 1 }
      (by simp; omega) (by simp; omega)
    rw [ihh]
    simp
    constructor
    · omega
    · omega

/-- C3: below the threshold the breaker check performs no wait and keeps the
counter; at or above the threshold it performs exactly one 300-second wait
and resets the counter to zero; five consecutive extraction failures from a
fresh counter produce no waits and leave the counter at 5, so the next check
cools down once; every job whose extraction call returns resets the counter;
a success interposed among failures prevents the cooldown that nine straight
failures would trigger. -/
theorem circuit_breaker_threshold_behavior :
    (∀ cf : Int, cf < MAX_CONSECUTIVE_FAILURES →
        circuit_breaker_check cf = ([], cf)) ∧
    (∀ cf : Int, MAX_CONSECUTIVE_FAILURES ≤ cf →
        circuit_breaker_check cf = ([CIRCUIT_BREAKER_DELAY], 0) ∧
        CIRCUIT_BREAKER_DELAY = 300) ∧
    (∀ st : BatchState, st.cf = 0 →
        (runBatch st (List.replicate 5 errJob)).1.cf = 5 ∧
        (runBatch st (List.replicate 5 errJob)).2 = [] ∧
        circuit_breaker_check (runBatch st (List.replicate 5 errJob)).1.cf
          = ([300], 0)) ∧
    (∀ (st : BatchState) (d : OrderDetails) (isLast : Bool),
        (processFile st (.ok d) isLast).1.cf = 0) ∧
    (runBatch initState
        (List.replicate 4 errJob ++ okJob :: List.replicate 4 errJob)).2 = [1] ∧
    (runBatch initState (List.replicate 9 errJob)).2 = [CIRCUIT_BREAKER_DELAY] := by
  refine ⟨?_, ?_, ?_, ?_, ?_, ?_⟩
  · intro cf h
    unfold circuit_breaker_check
    rw [if_neg (by omega)]
  · intro cf h
    constructor
    · unfold circuit_breaker_check
      rw [if_pos (by omega)]
    · decide
  · intro st h
    have hr := runBatch_err_below 5 st (by omega) (by omega)
    rw [hr]
    refine ⟨by simp [h], by simp, ?_⟩
    simp only [h]
    decide
  · intro st d isLast
    cases hd : d.items.isEmpty <;> simp [processFile, hd]
  · decide
  · decide

/-- C3 witness: concrete instances of the breaker rules. -/
theorem circuit_breaker_threshold_behavior_witness :
    circuit_breaker_check 3 = ([], 3) ∧
    circuit_breaker_check 7 = ([CIRCUIT_BREAKER_DELAY], 0) ∧
    (runBatch initState (List.replicate 5 errJob)).1.cf = 5 := by
  refine ⟨?_, ?_, ?_⟩
  · exact circuit_breaker_threshold_behavior.1 3 (by decide)
  · exact (circuit_breaker_threshold_behavior.2.1 7 (by decide)).1
  · exact (circuit_breaker_threshold_behavior.2.2.1 initState rfl).1

/-- C4 counterexample: three raising jobs followed by a job that returns an
empty item list give four jobs counted failed and zero counted successful,
yet `consecutive_failures` ends at 0, not 4 — the empty-result job increments
the failure tally but resets the counter. -/
theorem consecutive_failures_claim_counterexample :
    (runBatch initState [errJob, errJob, errJob, emptyJob]).1.fail = 4 ∧
    (runBatch initState [errJob, errJob, errJob, emptyJob]).1.succ = 0 ∧
    (runBatch initState [errJob, errJob, errJob, emptyJob]).1.cf = 0 ∧
    (runBatch initState [errJob, errJob, errJob, emptyJob]).1.cf ≠ 4 := by
  decide

/-- C4 amended: `consecutive_failures` is reset to zero after every job
whose extraction call returns (even one counted failed for yielding no
items); a job whose extraction raises sets it to one more than its
post-breaker-check value (exactly `+1` whenever it was below the threshold);
and it is never negative. -/
theorem consecutive_failures_transition (st : BatchState) (out : JobOutcome)
    (isLast : Bool) (hnn : 0 ≤ st.cf) :
    (∀ d : OrderDetails, out = .ok d → (processFile st out isLast).1.cf = 0) ∧
    (∀ e : List Char, out = .error e →
        (processFile st out isLast).1.cf = (circuit_breaker_check st.cf).2 + 1 ∧
        (st.cf < MAX_CONSECUTIVE_FAILURES →
          (processFile st out isLast).1.cf = st.cf + 1)) ∧
    0 ≤ (processFile st out isLast).1.cf := by
  refine ⟨?_, ?_, ?_⟩
  · intro d h
    subst h
    cases hd : d.items.isEmpty <;> simp [processFile, hd]
  · intro e h
    subst h
    refine ⟨by simp [processFile], ?_⟩
    intro hlt
    have hchk : circuit_breaker_check st.cf = ([], st.cf) := by
      unfold circuit_breaker_check
      rw [if_neg (by omega)]
    simp [processFile, hchk]
  · rcases out with e | d
    · have h2 : (circuit_breaker_check st.cf).2 = 0 ∨
          (circuit_breaker_check st.cf).2 = st.cf := by
        unfold circuit_breaker_check
        split
        · exact Or.inl rfl
        · exact Or.inr rfl
      have h3 : (processFile st (Except.error e) isLast).1.cf =
          (circuit_breaker_check st.cf).2 + 1 := by
        simp [processFile]
      rw [h3]
      rcases h2 with h | h <;> rw [h] <;> omega
    · cases hd : d.items.isEmpty <;> simp [processFile, hd]

/-- C4 witness: a fresh state processing an empty-result job keeps the
counter at zero. -/
theorem consecutive_failures_transition_witness :
    (processFile initState emptyJob false).1.cf = 0 :=
  (consecutive_failures_transition initState emptyJob false (by decide)).1
    ⟨[], none, none, none, none⟩ rfl

/-- C9 counterexample: a two-file batch whose first file raises performs no
1-second pacing sleep at all, though the claim demands one after every
non-final file regardless of failure. -/
theorem pacing_claim_counterexample :
    [errJob, okJob].length = 2 ∧
    (runBatch initState [errJob, okJob]).2 = [] ∧
    (1 : ℚ) ∉ (runBatch initState [errJob, okJob]).2 := by decide

/-- C9 amended: a file's iteration performs exactly one 1-second pacing
sleep when its extraction call returns (with or without items) and it is not
the last file, and none otherwise — in particular none when the extraction
raises. -/
theorem pacing_rule (st : BatchState) (out : JobOutcome) (isLast : Bool) :
    (processFile st out isLast).2.count (1 : ℚ) =
      match out, isLast with
      | .ok _, false => 1
      | _, _ => 0 := by
  have hchk : (circuit_breaker_check st.cf).1.count (1 : ℚ) = 0 := by
    unfold circuit_breaker_check
    split
    · simp [CIRCUIT_BREAKER_DELAY]
    · simp
  rcases out with e | d
  · simpa [processFile] using hchk
  · cases isLast <;> simp [processFile, List.count_append, hchk]

/-! ## Claim theorems: assembly merge (C6, C7, C8) -/

lemma mergeItem_surface_eq (bomData : OrderItem) (apn : List Char)
    (item : OrderItem) (hpn : item.part_number = some apn) :
    (mergeItem bomData apn item).surface_treatment =
      (if newSurfaceUsable bomData.surface_treatment &&
          oldSurfaceMissing item.surface_treatment then
        bomData.surface_treatment else item.surface_treatment) := by
  unfold mergeItem
  rw [if_pos hpn]
  cases hb : optListTruthy bomData.bom_part_numbers <;>
    cases hc : (newSurfaceUsable bomData.surface_treatment &&
      oldSurfaceMissing item.surface_treatment) <;> simp [hb, hc]

lemma mergeItem_bom_eq (bomData : OrderItem) (apn : List Char)
    (item : OrderItem) (hpn : item.part_number = some apn) :
    (mergeItem bomData apn item).bom_part_numbers =
      (if optListTruthy bomData.bom_part_numbers then
        bomData.bom_part_numbers else item.bom_part_numbers) := by
  unfold mergeItem
  rw [if_pos hpn]
  cases hb : optListTruthy bomData.bom_part_numbers <;>
    cases hc : (newSurfaceUsable bomData.surface_treatment &&
      oldSurfaceMissing item.surface_treatment) <;> simp [hb, hc]

lemma newSurfaceUsable_iff (s : Option (List Char)) :
    newSurfaceUsable s = true ↔
      ∃ t, s = some t ∧ t ≠ [] ∧ lowerStr t ≠ pyStr "none" := by
  rcases s with _ | t
  · simp [newSurfaceUsable]
  · simp [newSurfaceUsable, List.isEmpty_iff, lowerStr, List.map_eq_nil_iff,
      show pyStr "" = ([] : List Char) from rfl]
    intro h
    tauto

lemma oldSurfaceMissing_iff (s : Option (List Char)) :
    oldSurfaceMissing s = true ↔
      s = none ∨ ∃ t, s = some t ∧ (t = [] ∨ lowerStr t = pyStr "none") := by
  rcases s with _ | t
  · simp [oldSurfaceMissing]
  · simp [oldSurfaceMissing, List.isEmpty_iff, lowerStr, List.map_eq_nil_iff,
      show pyStr "" = ([] : List Char) from rfl]
    tauto

/-- C6: on the assembly item, the merged surface treatment equals the
re-extraction's value exactly when the new value is present, non-empty and
not `"none"` (case-insensitively) and the original was absent, empty or
`"none"`; otherwise the original survives.  The BOM list is replaced by the
re-extraction's whenever that one is present and non-empty, and kept
otherwise. -/
theorem merge_surface_and_bom_rules (bomData : OrderItem) (apn : List Char)
    (item : OrderItem) (hpn : item.part_number = some apn) :
    (((∃ t, bomData.surface_treatment = some t ∧ t ≠ [] ∧
          lowerStr t ≠ pyStr "none") ∧
      (item.surface_treatment = none ∨
       ∃ t, item.surface_treatment = some t ∧
         (t = [] ∨ lowerStr t = pyStr "none"))) →
      (mergeItem bomData apn item).surface_treatment
        = bomData.surface_treatment) ∧
    (¬ ((∃ t, bomData.surface_treatment = some t ∧ t ≠ [] ∧
          lowerStr t ≠ pyStr "none") ∧
        (item.surface_treatment = none ∨
         ∃ t, item.surface_treatment = some t ∧
           (t = [] ∨ lowerStr t = pyStr "none"))) →
      (mergeItem bomData apn item).surface_treatment
        = item.surface_treatment) ∧
    (∀ l, bomData.bom_part_numbers = some l → l ≠ [] →
      (mergeItem bomData apn item).bom_part_numbers = some l) ∧
    ((bomData.bom_part_numbers = none ∨ bomData.bom_part_numbers = some []) →
      (mergeItem bomData apn item).bom_part_numbers
        = item.bom_part_numbers) := by
  refine ⟨?_, ?_, ?_, ?_⟩
  · rintro ⟨hnew, hold⟩
    rw [mergeItem_surface_eq bomData apn item hpn, if_pos]
    rw [Bool.and_eq_true]
    exact ⟨(newSurfaceUsable_iff _).mpr hnew, (oldSurfaceMissing_iff _).mpr hold⟩
  · intro hneg
    rw [mergeItem_surface_eq bomData apn item hpn, if_neg]
    intro hbc
    rw [Bool.and_eq_true] at hbc
    exact hneg ⟨(newSurfaceUsable_iff _).mp hbc.1, (oldSurfaceMissing_iff _).mp hbc.2⟩
  · intro l hl hlne
    rw [mergeItem_bom_eq bomData apn item hpn, if_pos, hl]
    simp [optListTruthy, hl, List.isEmpty_iff, hlne]
  · intro h
    rw [mergeItem_bom_eq bomData apn item hpn, if_neg]
    rcases h with h | h <;> simp [optListTruthy, h]

/-- C6 witness: a `"None"` surface treatment is replaced by `"Verzinkt"`,
and a `"Poedercoaten"` one is kept. -/
theorem merge_surface_and_bom_rules_witness :
    (mergeItem
        ⟨none, none, none, some (pyStr "Verzinkt"), none, none, none, none, none⟩
        (pyStr "ASM")
        ⟨some (pyStr "ASM"), none, none, some (pyStr "None"), none, none, none,
          none, none⟩).surface_treatment = some (pyStr "Verzinkt") ∧
    (mergeItem
        ⟨none, none, none, some (pyStr "Verzinkt"), none, none, none, none, none⟩
        (pyStr "ASM")
        ⟨some (pyStr "ASM"), none, none, some (pyStr "Poedercoaten"), none, none,
          none, none, none⟩).surface_treatment = some (pyStr "Poedercoaten") := by
  constructor
  · exact (merge_surface_and_bom_rules _ (pyStr "ASM") _ rfl).1
      ⟨⟨pyStr "Verzinkt", rfl, by decide, by decide⟩,
       Or.inr ⟨pyStr "None", rfl, Or.inr (by decide)⟩⟩
  · exact (merge_surface_and_bom_rules _ (pyStr "ASM") _ rfl).2.1
      (by rintro ⟨h1, h2 | ⟨t, ht, hc⟩⟩
          · simp at h2
          · injection ht with ht2
            subst ht2
            rcases hc with hc | hc
            · exact absurd hc (by decide)
            · exact absurd hc (by decide))

/-- C7: the merge keeps the number and order of items (it is a map), leaves
every field of the assembly item other than surface treatment and the BOM
list unchanged, and leaves non-assembly items entirely unchanged. -/
theorem merge_frame (bomData : OrderItem) (apn : List Char)
    (combined arest : List OrderItem) :
    (mergeAssembly combined (bomData :: arest) apn).length = combined.length ∧
    (∀ i : Nat, (mergeAssembly combined (bomData :: arest) apn)[i]?
        = (combined[i]?).map (mergeItem bomData apn)) ∧
    (∀ item : OrderItem,
        (mergeItem bomData apn item).part_number = item.part_number ∧
        (mergeItem bomData apn item).holes = item.holes ∧
        (mergeItem bomData apn item).tolerated_lengths = item.tolerated_lengths ∧
        (mergeItem bomData apn item).material = item.material ∧
        (mergeItem bomData apn item).notes = item.notes ∧
        (mergeItem bomData apn item).description = item.description ∧
        (mergeItem bomData apn item).quantity = item.quantity) ∧
    (∀ item : OrderItem, item.part_number ≠ some apn →
        mergeItem bomData apn item = item) := by
  refine ⟨by simp [mergeAssembly], ?_, ?_, ?_⟩
  · intro i
    simp [mergeAssembly, List.getElem?_map]
  · intro item
    by_cases hp : item.part_number = some apn <;>
      cases hc : (newSurfaceUsable bomData.surface_treatment &&
        oldSurfaceMissing item.surface_treatment) <;>
      cases hb : optListTruthy bomData.bom_part_numbers <;>
      simp [mergeItem, hp, hc, hb]
  · intro item h
    simp [mergeItem, h]

/-- C7 witness: an item that is not the assembly passes through the merge
unchanged. -/
theorem merge_frame_witness :
    mergeItem (mkItem none none) (pyStr "A") (mkItem none none)
      = mkItem none none :=
  (merge_frame (mkItem none none) (pyStr "A") [] []).2.2.2
    (mkItem none none) (by decide)

/-- C8: when the restricted re-extraction fails, the merge block leaves the
accumulated combined item list unchanged and propagates no error — the
failing outcome is absorbed by the `except` arm of `applyAssemblyMerge`. -/
theorem merge_failure_preserves_batch (combined : List OrderItem)
    (e : List Char) (apn : List Char) :
    applyAssemblyMerge combined (.error e) apn = combined := rfl

end Extractor
